import Mathlib

/-!
Shallow embedding of `orcamentosystem.py` (SystemSAT repository) and proofs
about it.

Modelling conventions, used throughout:

* Python strings are Lean `String`s; all string manipulation is embedded at
  the `List Char` level (Python `str.strip`, `str.replace` on one-character
  patterns, `str.split`, `str.lower`, `str.startswith` become explicit list
  functions below), and wrapped back into `String` at function boundaries.
* Python floats are modelled as rationals (`ℚ`).  The model is exact on the
  finite decimal values the program manipulates; IEEE-754 artefacts
  (rounding of non-representable decimals, `inf`/`nan` literals, negative
  zero) are outside the model and are noted where relevant.
* Spreadsheet cell values are modelled by `PyVal` (string / float / int);
  an empty cell is `Option.none`.
-/

set_option linter.unusedVariables false

namespace SystemSAT

/-- Character model of Python `str.strip()` with no arguments: drop
whitespace from both ends. -/
def pyStrip (l : List Char) : List Char :=
  ((l.dropWhile Char.isWhitespace).reverse.dropWhile Char.isWhitespace).reverse

/-- Character model of Python `str.lower()` (applied characterwise; exotic
Unicode case mappings are outside the model). -/
def pyLower (l : List Char) : List Char :=
  l.map Char.toLower

/-- The double-quote character, written via its code point. -/
def dq : Char := Char.ofNat 34

/-- The single-quote character, written via its code point. -/
def sq : Char := Char.ofNat 39

/-- Character model of Python `str.strip('"')`: drop ALL leading and
trailing double-quote characters (each side independently). -/
def pyStripQuotes (l : List Char) : List Char :=
  ((l.dropWhile (fun c => c == dq)).reverse.dropWhile (fun c => c == dq)).reverse

/-- Does `l` start with `pre`?  (model of Python `str.startswith`). -/
def startsWithL : List Char → List Char → Bool
  | [], _ => true
  | _ :: _, [] => false
  | a :: as, b :: bs => a == b && startsWithL as bs

/-- Does `needle` occur as a contiguous substring of `hay`?  (model of
Python `needle in hay`). -/
def containsSub (needle hay : List Char) : Bool :=
  hay.tails.any (fun t => startsWithL needle t)

/-- Model of Python `str.split(c)` for a one-character separator: splits at
every occurrence; the empty string yields `[[]]`, mirroring `"".split(",")
== [""]`. -/
def splitOnChar (c : Char) : List Char → List (List Char)
  | [] => [[]]
  | a :: as =>
    match splitOnChar c as with
    | [] => if a == c then [[], []] else [[a]]
    | h :: t => if a == c then [] :: h :: t else (a :: h) :: t

/-- Model of Python `str.split(c, 1)` when the separator is known to occur:
the part before the first `c` and everything after it. -/
def splitFirst (c : Char) : List Char → List Char × List Char
  | [] => ([], [])
  | a :: as =>
    if a == c then ([], as)
    else
      let p := splitFirst c as
      (a :: p.1, p.2)

/-- Numeric value of a most-significant-digit-first list of ASCII digits. -/
def natOfDigits (l : List Char) : Nat :=
  l.foldl (fun a c => 10 * a + (c.toNat - 48)) 0

/-- CPython's rule for underscores in numeric literals, checked over the
whole literal: each `_` must sit between two ASCII digits.  `prev` is the
previous character. -/
def underscoresOKAux : Char → List Char → Bool
  | _, [] => true
  | prev, a :: rest =>
    if a = '_' then
      match rest with
      | [] => false
      | next :: rest2 => prev.isDigit && next.isDigit && underscoresOKAux next rest2
    else underscoresOKAux a rest

/-- Underscore placement check for a whole numeric literal. -/
def underscoresOK (l : List Char) : Bool :=
  match l with
  | [] => true
  | a :: rest => if a = '_' then false else underscoresOKAux a rest

/-- Split an optional leading sign: returns (isNegative, rest). -/
def signSplit : List Char → Bool × List Char
  | [] => (false, [])
  | a :: r =>
    if a = '+' then (false, r)
    else if a = '-' then (true, r)
    else (false, a :: r)

/-- Model of CPython `float(str)` on finite decimal/scientific literals:
strips whitespace, accepts an optional sign, digits with an optional
fractional part and an optional exponent, with CPython's underscore rule.
Returns `none` where `float()` raises `ValueError`.  (The special literals
`inf`/`infinity`/`nan`, whose values are not finite, and non-ASCII decimal
digits are outside this rational-valued model.)  `floatCore` parses the
unsigned body: digits, an optional fraction introduced by `.`, and an
optional exponent. -/
def floatCore (l : List Char) : Option ℚ :=
  let a := l.span Char.isDigit
  let b :=
    if a.2.head? = some '.' then a.2.tail.span Char.isDigit
    else (([] : List Char), a.2)
  if a.1.isEmpty && b.1.isEmpty then none
  else
    let mant : ℚ := (natOfDigits (a.1 ++ b.1) : ℚ) / (10 : ℚ) ^ b.1.length
    match b.2 with
    | [] => some mant
    | c :: r3 =>
      if c == 'e' || c == 'E' then
        let es := signSplit r3
        let ed := es.2.span Char.isDigit
        if ed.1.isEmpty || !ed.2.isEmpty then none
        else
          some (mant * (10 : ℚ) ^
            (if es.1 then -(natOfDigits ed.1 : ℤ) else (natOfDigits ed.1 : ℤ)))
      else none

/-- Model of CPython `float(str)`, continued: whitespace strip, underscore
rule, optional sign, then the unsigned literal via `floatCore`. -/
def floatChars? (l0 : List Char) : Option ℚ :=
  let l1 := pyStrip l0
  if underscoresOK l1 = false then none
  else
    let l2 := l1.filter (fun c => !(c == '_'))
    let s := signSplit l2
    match floatCore s.2 with
    | none => none
    | some m => some (if s.1 then -m else m)

/-- `float()` applied to a Lean `String`. -/
def pyFloat? (s : String) : Option ℚ :=
  floatChars? s.data

/-- Model of CPython `int(str)` (base 10): strips whitespace, optional
sign, ASCII digits with CPython's underscore rule.  `none` where `int()`
raises `ValueError`. -/
def intChars? (l0 : List Char) : Option ℤ :=
  let l1 := pyStrip l0
  if underscoresOK l1 = false then none
  else
    let l2 := l1.filter (fun c => !(c == '_'))
    let s := signSplit l2
    if s.2.isEmpty || !s.2.all Char.isDigit then none
    else some (if s.1 then -(natOfDigits s.2 : ℤ) else (natOfDigits s.2 : ℤ))

/-- The cleaned text `parse_float` hands to `float()`: stripped, with `.`
(thousands separator) removed and `,` (decimal separator) turned into
`.`. -/
def cleanedOf (s : String) : List Char :=
  ((pyStrip s.data).filter (fun c => !(c == '.'))).map
    (fun c => if c == ',' then '.' else c)

/-- Embedding of `parse_float` (orcamentosystem.py, lines 35-43): strip,
remove `.`, turn `,` into `.` (`cleanedOf`), then `float()`, with 0.0 on
failure or on absent input. -/
def parse_float (text : Option String) : ℚ :=
  match text with
  | none => 0
  | some s =>
    match floatChars? (cleanedOf s) with
    | some q => q
    | none => 0

/-- Embedding of `parse_int` (orcamentosystem.py, lines 45-52): strip then
`int()`, with 0 on failure or on absent input. -/
def parse_int (text : Option String) : ℤ :=
  match text with
  | none => 0
  | some s =>
    match intChars? (pyStrip s.data) with
    | some z => z
    | none => 0

/-- Round a rational to the nearest integer, ties to even: the rounding
CPython's `format(x, '.2f')` performs on the (here exactly represented)
numeric value. -/
def roundHalfEven (x : ℚ) : ℤ :=
  let n := ⌊x⌋
  let r := x - (n : ℚ)
  if r < 1 / 2 then n
  else if 1 / 2 < r then n + 1
  else if n % 2 = 0 then n else n + 1

/-- Decimal digits of a natural number, least significant first; `[]` for
0.  The first argument is structural fuel (any bound on the digit count,
e.g. the number itself), keeping the definition kernel-reducible. -/
def natDigitsAux : Nat → Nat → List Char
  | _, 0 => []
  | 0, _ + 1 => []
  | fuel + 1, n + 1 =>
    Nat.digitChar ((n + 1) % 10) :: natDigitsAux fuel ((n + 1) / 10)

/-- Decimal digits of a natural number, most significant first; `['0']`
for 0 (as Python prints it). -/
def digitsOf (n : Nat) : List Char :=
  if n = 0 then ['0'] else (natDigitsAux n n).reverse

/-- The two decimal digits Python's `.2f` prints for a fractional part
`f < 100` (tens digit then ones digit, zero-padded). -/
def twoDig (f : Nat) : List Char :=
  [Nat.digitChar (f / 10 % 10), Nat.digitChar (f % 10)]

/-- Insert a `.` after every three characters of a least-significant-first
digit list: the reversed form of Python's `,` thousands grouping (the `,`
has already been swapped to `.` as `format_brl` does). -/
def go3 : List Char → List Char
  | a :: b :: c :: d :: rest => a :: b :: c :: '.' :: go3 (d :: rest)
  | l => l

/-- Thousands grouping of a most-significant-first digit list, with `.` as
the separator (the final state of `format_brl`'s separator swap). -/
def groupDigits (ds : List Char) : List Char :=
  (go3 ds.reverse).reverse

/-- The characters after the `"R$ "` prefix in `format_brl`'s output:
optional sign, grouped integer digits, `,`, two fraction digits.  This is
`f"{number:,.2f}"` with `,`/`.` already swapped as lines 30-31 of the
source do. -/
def brlChars (q : ℚ) : List Char :=
  let scaled := roundHalfEven (q * 100)
  let intPart := scaled.natAbs / 100
  let fracPart := scaled.natAbs % 100
  (if q < 0 then ['-'] else []) ++
    groupDigits (digitsOf intPart) ++ ',' :: twoDig fracPart

/-- A Python value as stored in a spreadsheet cell or passed to
`format_brl`: a string, a float (modelled as `ℚ`), or an int. -/
inductive PyVal where
  | vstr (s : String)
  | vfloat (q : ℚ)
  | vint (n : ℤ)
deriving DecidableEq

/-- Decimal rendering of `|q|` with exactly `k` fraction digits
(truncated), used only by the `str(float)` approximation below. -/
def decimalRender (a : ℚ) (k : Nat) : List Char :=
  let m := (⌊a * (10 : ℚ) ^ k⌋).toNat
  digitsOf (m / 10 ^ k) ++ '.' :: (twoPad k (m % 10 ^ k))
where
  /-- `num` rendered as exactly `k` digits, zero-padded on the left. -/
  twoPad (k num : Nat) : List Char :=
    let ds := digitsOf num
    List.replicate (k - ds.length) '0' ++ ds

/-- Approximation of Python `str(float)`: exact for values with a short
terminating decimal expansion (the only floats this program ever converts
to strings), truncated at 17 fraction digits otherwise.  Python's
shortest-round-trip repr is not reproduced digit-for-digit beyond that. -/
def floatRepr (q : ℚ) : String :=
  let a := |q|
  let sgn : List Char := if q < 0 then ['-'] else []
  let k := ((List.range 18).find? fun k => (a * (10 : ℚ) ^ k).den = 1).getD 17
  if k = 0 then String.mk (sgn ++ digitsOf (⌊a⌋).toNat ++ ['.', '0'])
  else String.mk (sgn ++ decimalRender a k)

/-- Model of Python `str()` on cell values, as `values_from_range` applies
it (`str(cell.value)`). -/
def pyStr : PyVal → String
  | .vstr s => s
  | .vint n => toString n
  | .vfloat q => floatRepr q

/-- Embedding of `format_brl` (orcamentosystem.py, lines 23-32): `None`
becomes 0, `float(value)` is attempted with 0.0 on `TypeError`/`ValueError`,
the result is formatted `,.2f` and the separators are swapped, giving
Brazilian currency notation prefixed with `"R$ "`. -/
def format_brl (value : Option PyVal) : String :=
  let number : ℚ :=
    match value with
    | none => 0
    | some (.vfloat q) => q
    | some (.vint n) => (n : ℚ)
    | some (.vstr s) =>
      match pyFloat? s with
      | some q => q
      | none => 0
  String.mk ('R' :: '$' :: ' ' :: brlChars number)

/-! ## Workbook model and range parsing -/

/-- A rectangular cell range, as openpyxl's `CellRange` stores it:
1-based column/row bounds. -/
structure CellRange where
  min_col : Nat
  min_row : Nat
  max_col : Nat
  max_row : Nat
deriving DecidableEq

/-- One data-validation rule: the ranges it applies to (its sqref) and its
first formula (`None` or the empty string mean "no formula"). -/
structure DataValidation where
  sqref : List CellRange
  formula1 : Option String

/-- A worksheet: `cells` is the default (`data_only=False`) view of each
cell, `cached` the `data_only=True` view (the last value a spreadsheet
engine stored for the cell; for non-formula cells openpyxl reports the raw
value there, which concrete instances mirror by putting the same value in
both maps).  Coordinates are (column, row), 1-based; `none` is an empty
cell.  `data_validations` is the worksheet's validation list (empty when
the attribute is absent or holds no rules, both falsy in the source's
`if not validations`). -/
structure Worksheet where
  cells : Nat → Nat → Option PyVal
  cached : Nat → Nat → Option PyVal
  data_validations : List DataValidation

/-- A workbook: its named sheets and its active worksheet.  The source
reaches the workbook as `ws.parent`; the embedding passes it explicitly.
Concrete instances list the active sheet inside `sheets` as well, matching
openpyxl, though nothing below depends on it. -/
structure Workbook where
  sheets : List (String × Worksheet)
  active : Worksheet

/-- Parse 1-3 column letters into a 1-based column index, returning the
rest of the input; `none` if no letter is present. -/
def parseColLetters (l : List Char) : Option (Nat × List Char) :=
  let letters := (l.takeWhile Char.isAlpha).take 3
  if letters.isEmpty then none
  else
    some (letters.foldl (fun a c => 26 * a + (c.toUpper.toNat - 64)) 0,
      l.drop letters.length)

/-- Parse a run of digits into a row number, returning the rest; `none` if
no digit is present. -/
def parseRowDigits (l : List Char) : Option (Nat × List Char) :=
  let ds := l.takeWhile Char.isDigit
  if ds.isEmpty then none else some (natOfDigits ds, l.drop ds.length)

/-- Parse one `[$]?letters[$]?digits` coordinate, returning the rest. -/
def parseCoordPart (l : List Char) : Option (Nat × Nat × List Char) :=
  let l1 := if startsWithL ['$'] l then l.drop 1 else l
  match parseColLetters l1 with
  | none => none
  | some cp =>
    let l2 := if startsWithL ['$'] cp.2 then cp.2.drop 1 else cp.2
    match parseRowDigits l2 with
    | none => none
    | some rp => if cp.1 ≤ 16384 then some (cp.1, rp.1, rp.2) else none

/-- Embedding of openpyxl's `range_boundaries`, specialised to full
coordinates: `"A1"` gives `(1,1,1,1)`, `"A1:C2"` gives `(1,1,3,2)`, with
optional `$` anchors and case-insensitive letters; `none` where the
original raises `ValueError` (which `values_from_range` turns into `[]`).
Column-only and row-only ranges such as `"A:B"`, which openpyxl resolves
against the worksheet's used dimension, have no counterpart in this
dimensionless worksheet model and are treated as parse failures; no claim
quantifies over them. -/
def range_boundaries (s : String) : Option (Nat × Nat × Nat × Nat) :=
  match parseCoordPart s.data with
  | none => none
  | some (c1, r1, rest) =>
    match rest with
    | [] => some (c1, r1, c1, r1)
    | ':' :: rest2 =>
      match parseCoordPart rest2 with
      | some (c2, r2, []) => some (c1, r1, c2, r2)
      | _ => none
    | _ => none

/-- Embedding of `ws.iter_rows(min_row=…, max_row=…, min_col=…,
max_col=…)`: the rows of the rectangle, each row the cells left to right
(row-major overall).  Empty when a minimum exceeds its maximum. -/
def iter_rows (ws : Worksheet) (min_row max_row min_col max_col : Nat) :
    List (List (Option PyVal)) :=
  (List.range' min_row (max_row + 1 - min_row)).map fun r =>
    (List.range' min_col (max_col + 1 - min_col)).map fun c => ws.cells c r

/-- Embedding of `values_from_range` (orcamentosystem.py, lines 69-79):
parse the range, return `[]` on `ValueError`, else accumulate
`str(cell.value)` for every non-`None` cell of the rectangle in iteration
order. -/
def values_from_range (ws : Worksheet) (cell_range : String) : List String :=
  match range_boundaries cell_range with
  | none => []
  | some (min_col, min_row, max_col, max_row) =>
    (iter_rows ws min_row max_row min_col max_col).foldl
      (fun acc row =>
        row.foldl
          (fun acc2 c =>
            match c with
            | some v => acc2 ++ [pyStr v]
            | none => acc2)
          acc)
      []

/-- Embedding of `cell_in_sqref` (lines 55-59): does any range of the
sqref contain the coordinate?  openpyxl's `coord in CellRange` parses the
coordinate with `range_boundaries` and tests rectangle inclusion. -/
def cell_in_sqref (cell : String) (sqref : List CellRange) : Bool :=
  sqref.any fun rng =>
    match range_boundaries cell with
    | some (c1, r1, c2, r2) =>
      decide (rng.min_col ≤ c1 ∧ c2 ≤ rng.max_col ∧
        rng.min_row ≤ r1 ∧ r2 ≤ rng.max_row)
    | none => false

/-- Embedding of `normalize_sheet_name` (lines 62-66): strip whitespace,
then remove one layer of single quotes when the name starts and ends with
one. -/
def normalize_sheet_name (name : String) : String :=
  let l := pyStrip name.data
  if startsWithL [sq] l && startsWithL [sq] l.reverse && l ≠ [] then
    String.mk (l.drop 1).dropLast
  else String.mk l

/-- Sheet lookup, `wb[name]` guarded by `name in wb.sheetnames` as the
source writes it; the fallback worksheet is returned when the name is
absent. -/
def lookupSheet (wb : Workbook) (name : String) (fallback : Worksheet) :
    Worksheet :=
  if (wb.sheets.map Prod.fst).contains name then
    (((wb.sheets.find? fun p => p.1 == name).map Prod.snd).getD fallback)
  else fallback

/-- The comma-split of list formulas, as the source writes it twice:
`[item.strip() for item in cleaned.split(",") if item.strip()]`. -/
def inlineSplit (cleaned : List Char) : List String :=
  (splitOnChar ',' cleaned).filterMap fun item =>
    let t := pyStrip item
    if t.isEmpty then none else some (String.mk t)

/-- The body of `get_dropdown_values`'s loop once a rule has matched
(orcamentosystem.py, lines 89-108): the falsy-formula guard, the `=`
strip, and the four-way classification of the formula. -/
def applyRule (wb : Workbook) (ws : Worksheet) (dv : DataValidation) :
    List String :=
  match dv.formula1 with
  | none => []
  | some f0 =>
    if f0 = "" then []
    else
      let f1 := pyStrip f0.data
      let f := if startsWithL ['='] f1 then f1.drop 1 else f1
      if f.contains ',' && !f.contains '!' && !f.contains ':' &&
          !startsWithL ['$'] f then
        inlineSplit (pyStripQuotes (pyStrip f))
      else if f.contains '!' then
        let p := splitFirst '!' f
        let sheet_name := normalize_sheet_name (String.mk p.1)
        let target_ws := lookupSheet wb sheet_name ws
        values_from_range target_ws (String.mk (p.2.filter fun c => !(c == '$')))
      else if f.contains ':' then
        values_from_range ws (String.mk (f.filter fun c => !(c == '$')))
      else
        let cleaned := pyStripQuotes (pyStrip f)
        if cleaned.contains ',' then inlineSplit cleaned
        else if cleaned.isEmpty then [] else [String.mk cleaned]

/-- The `for dv in validations.dataValidation` loop of
`get_dropdown_values`: skip rules whose sqref misses the cell; the first
hit returns `applyRule`'s result; `[]` when the loop falls through. -/
def gdvScan (wb : Workbook) (ws : Worksheet) (cell : String) :
    List DataValidation → List String
  | [] => []
  | dv :: rest =>
    if cell_in_sqref cell dv.sqref then applyRule wb ws dv
    else gdvScan wb ws cell rest

/-- Embedding of `get_dropdown_values` (orcamentosystem.py, lines 82-109).
The `getattr(ws, "data_validations", None)` / falsy guard is the empty-list
test; the workbook (`ws.parent` in the source) is passed explicitly. -/
def get_dropdown_values (wb : Workbook) (ws : Worksheet) (cell : String) :
    List String :=
  if ws.data_validations.isEmpty then []
  else gdvScan wb ws cell ws.data_validations

/-! ## Application model: file system, form state, compute cycle

The GUI widgets are modelled by the state they carry: the `StringVar`
contents and the configured state of the two dependent comboboxes.  File
paths are the module-level constants relative to the resource base
(`resource_path` joins a fixed base directory onto both, so distinct
relative names stay distinct). -/

/-- Module-level constant `EXCEL_FILE`: the master template path. -/
def EXCEL_FILE : String := "interface.xlsx"

/-- Module-level constant `RUNTIME_EXCEL_FILE`: the scratch copy path. -/
def RUNTIME_EXCEL_FILE : String := "interface_runtime.xlsx"

/-- The file system visible to the program: a workbook file per path
(`none` = no file at that path). -/
structure FS where
  files : String → Option Workbook

/-- State of a `ttk.Combobox` as this program configures it: `readonly`
(its enabled state, accepting selections) or `disabled`. -/
inductive WidgetState where
  | readonly
  | disabled
deriving DecidableEq

/-- The dropdown cache: one resolved value list per logical key, `[]` when
the template is missing (`dropdown_cache = {}` makes every
`.get(key, [])` return `[]`). -/
structure DropdownCache where
  contribuinte : List String
  pagamento : List String
  bandeira : List String
  parcelas : List String
  estado : List String

/-- The mutable widget state of `OrcamentoApp`: the seven input variables,
the two configurable combobox states, and the four result variables. -/
structure AppState where
  contribuinte_var : String
  preco_var : String
  quantidade_var : String
  pagamento_var : String
  bandeira_var : String
  parcelas_var : String
  estado_var : String
  bandeira_state : WidgetState
  parcelas_state : WidgetState
  frete_var : String
  default_var : String
  total_var : String
  valor_unit_var : String

/-- Embedding of `_load_dropdowns` (lines 127-143): open the template
read-only, resolve the five dropdown cells on the active sheet, close.  A
missing template leaves the cache empty.  No file is modified. -/
def load_dropdowns (fs : FS) : DropdownCache :=
  match fs.files EXCEL_FILE with
  | none => ⟨[], [], [], [], []⟩
  | some wb =>
    ⟨get_dropdown_values wb wb.active "B3",
     get_dropdown_values wb wb.active "B7",
     get_dropdown_values wb wb.active "B8",
     get_dropdown_values wb wb.active "B9",
     get_dropdown_values wb wb.active "B10"⟩

/-- Does the payment-method value contain `"vista"` after lowering?  The
condition of `_update_pagamento_state` (line 252). -/
def hasVista (s : String) : Bool :=
  containsSub "vista".data (pyLower s.data)

/-- Embedding of `_update_pagamento_state` (lines 250-257): disable the
card-brand and installment comboboxes when the payment method contains
`"vista"` case-insensitively, else set them back to `readonly` (their
enabled state).  Only the two widget states change; no variable is
touched. -/
def update_pagamento_state (a : AppState) : AppState :=
  if hasVista a.pagamento_var then
    { a with bandeira_state := .disabled, parcelas_state := .disabled }
  else
    { a with bandeira_state := .readonly, parcelas_state := .readonly }

/-- `_add_combo`'s initial value: the first resolved value, or `""` when
the list is empty (the combobox then offers a single empty option). -/
def headOrEmpty : List String → String
  | [] => ""
  | v :: _ => v

/-- Embedding of `__init__` + `_build_ui` (lines 113-209): resolve the
dropdown cache, initialise every variable (choice fields to their first
resolved value, entries and then results to their defaults), and run the
payment-method check once at the end of `_build_ui` (line 209). -/
def initApp (fs : FS) : AppState :=
  let cache := load_dropdowns fs
  update_pagamento_state
    { contribuinte_var := headOrEmpty cache.contribuinte
      preco_var := ""
      quantidade_var := ""
      pagamento_var := headOrEmpty cache.pagamento
      bandeira_var := headOrEmpty cache.bandeira
      parcelas_var := headOrEmpty cache.parcelas
      estado_var := headOrEmpty cache.estado
      bandeira_state := .readonly
      parcelas_state := .readonly
      frete_var := format_brl (some (.vint 0))
      default_var := format_brl (some (.vint 0))
      total_var := format_brl (some (.vint 0))
      valor_unit_var := format_brl (some (.vint 0)) }

/-- The `<<ComboboxSelected>>` handler wiring for the payment-method field
(line 181): selecting a value first stores it in `pagamento_var`, then
tkinter fires the bound `_update_pagamento_state`. -/
def selectPagamento (v : String) (a : AppState) : AppState :=
  update_pagamento_state { a with pagamento_var := v }

/-- Embedding of `_set_results` (lines 287-291): format each of the four
read values into its result variable. -/
def set_results (a : AppState)
    (frete default_val total_cliente valor_unit : Option PyVal) : AppState :=
  { a with
    frete_var := format_brl frete
    default_var := format_brl default_val
    total_var := format_brl total_cliente
    valor_unit_var := format_brl valor_unit }

/-- Write one cell of the active sheet (`ws["B3"] = …`).  The `data_only`
view of a written input cell is not re-derived (no claim reads a cell that
was written). -/
def writeActiveCell (wb : Workbook) (c r : Nat) (v : Option PyVal) :
    Workbook :=
  { wb with active :=
      { wb.active with cells := fun c2 r2 =>
          if c2 = c ∧ r2 = r then v else wb.active.cells c2 r2 } }

/-- The seven input-cell writes of `calculate` (lines 267-273), in source
order: B3 payer, B4 price (parsed float), B5 quantity (parsed int), B7
payment method, B8 card brand, B9 installments, B10 state. -/
def writeInputs (wb : Workbook) (a : AppState) : Workbook :=
  writeActiveCell
    (writeActiveCell
      (writeActiveCell
        (writeActiveCell
          (writeActiveCell
            (writeActiveCell
              (writeActiveCell wb 2 3 (some (.vstr a.contribuinte_var)))
              2 4 (some (.vfloat (parse_float (some a.preco_var)))))
            2 5 (some (.vint (parse_int (some a.quantidade_var)))))
          2 7 (some (.vstr a.pagamento_var)))
        2 8 (some (.vstr a.bandeira_var)))
      2 9 (some (.vstr a.parcelas_var)))
    2 10 (some (.vstr a.estado_var))

/-- Embedding of `calculate` (lines 259-285).  `shutil.copyfile` opens the
source before touching the destination, so a missing template raises
`FileNotFoundError` with no file created or modified: the `except` branch
only sets the four results from `None`.  Otherwise the template is copied
to the scratch path, the inputs are written and saved there, and the four
output cells are read from the saved file's `data_only` view.  (openpyxl
never evaluates formulas, and saving from a `data_only=False` load drops
stored formula results, so the real reads may well be `None`; the model
keeps the file's `cached` view abstract since no claim constrains those
values.) -/
def calculate (fs : FS) (a : AppState) : FS × AppState :=
  match fs.files EXCEL_FILE with
  | none => (fs, set_results a none none none none)
  | some t =>
    let fs1 : FS :=
      ⟨fun p => if p = RUNTIME_EXCEL_FILE then some t else fs.files p⟩
    let wb := writeInputs t a
    let fs2 : FS :=
      ⟨fun p => if p = RUNTIME_EXCEL_FILE then some wb else fs1.files p⟩
    (fs2, set_results a (wb.active.cached 2 6) (wb.active.cached 2 14)
      (wb.active.cached 2 15) (wb.active.cached 9 4))

/-- The user-visible actions the frame claim ranges over: constructing the
app (startup: dropdown load + UI build) and pressing Calculate. -/
inductive Action where
  | startup
  | pressCalculate

/-- The whole system: the file system and the app's widget state. -/
structure Sys where
  fs : FS
  app : AppState

/-- One action against the system. -/
def stepAction : Action → Sys → Sys
  | .startup, s => { s with app := initApp s.fs }
  | .pressCalculate, s =>
    let p := calculate s.fs s.app
    { fs := p.1, app := p.2 }

/-- A sequence of actions, first action first. -/
def runActions : List Action → Sys → Sys
  | [], s => s
  | act :: rest, s => runActions rest (stepAction act s)

/-! ## Spec-side definitions

These definitions follow the specification's words rather than the source;
theorems compare the source-derived functions above against them. -/

/-- Claim C1's description of range resolution: the string form of every
non-empty cell of the rectangle, visited in row-major order. -/
def specRowMajorNonEmpty (ws : Worksheet)
    (min_col min_row max_col max_row : Nat) : List String :=
  (List.range' min_row (max_row + 1 - min_row)).flatMap fun r =>
    (List.range' min_col (max_col + 1 - min_col)).filterMap fun c =>
      (ws.cells c r).map pyStr

/-- Modelled from the spec: strip ONE layer of surrounding double quotes
(claim C2's wording) — remove a quote from each end exactly when both ends
carry one. -/
def stripOneLayer (l : List Char) : List Char :=
  if 2 ≤ l.length && startsWithL [dq] l && startsWithL [dq] l.reverse then
    (l.drop 1).dropLast
  else l

/-- Modelled from the spec: claim C2's inline-literal pipeline — strip one
layer of surrounding double quotes, split on comma, trim each token, drop
empty tokens. -/
def specInlineOneLayer (f : String) : List String :=
  (splitOnChar ',' (stripOneLayer f.data)).filterMap fun item =>
    let t := pyStrip item
    if t.isEmpty then none else some (String.mk t)

/-- Reversed shape check for a thousands-grouped integer part: groups of
three digits separated by `.` reading from the decimal point outwards,
ending in a final group of one to three digits. -/
def revIntOK : List Char → Bool
  | a :: b :: c :: '.' :: rest =>
    a.isDigit && b.isDigit && c.isDigit && revIntOK rest
  | [a] => a.isDigit
  | [a, b] => a.isDigit && b.isDigit
  | [a, b, c] => a.isDigit && b.isDigit && c.isDigit
  | _ => false

/-- Decidable well-formedness of a Brazilian currency string, phrased from
claim C6: the `"R$ "` prefix, an optional minus sign, digits grouped in
threes by `.`, then `,` and exactly two decimal digits. -/
def isBRLFormat (s : String) : Bool :=
  match s.data with
  | 'R' :: '$' :: ' ' :: rest =>
    let rest2 := if startsWithL ['-'] rest then rest.drop 1 else rest
    match rest2.reverse with
    | d1 :: d2 :: ',' :: ri => d1.isDigit && d2.isDigit && revIntOK ri
    | _ => false
  | _ => false

/-- Strip the `"R$ "` prefix, as claim C8's round trip prescribes. -/
def dropBRLTag (s : String) : String :=
  String.mk (s.data.drop 3)

/-! ## Concrete fixtures for the claims' example scenarios -/

/-- A worksheet holding `"X"` in D1, `"Y"` in D2, D3 empty (claim C1's
same-sheet range example) and `"P"`, `"Q"` in A1, A2 (claim C3's fallback
example), with a same-sheet range rule `D1:D3` on B3. -/
def wsRange : Worksheet where
  cells c r :=
    if c = 4 ∧ r = 1 then some (.vstr "X")
    else if c = 4 ∧ r = 2 then some (.vstr "Y")
    else if c = 1 ∧ r = 1 then some (.vstr "P")
    else if c = 1 ∧ r = 2 then some (.vstr "Q")
    else none
  cached _ _ := none
  data_validations := [⟨[⟨2, 3, 2, 3⟩], some "D1:D3"⟩]

/-- A single-sheet workbook around `wsRange`; there is no sheet named
`Lists`. -/
def wbRange : Workbook where
  sheets := [("Plan1", wsRange)]
  active := wsRange

/-- Same cells, with an inline literal list rule `"A,B,C"` on B3 (claim
C2's example). -/
def wsInline : Worksheet :=
  { wsRange with data_validations := [⟨[⟨2, 3, 2, 3⟩], some "\"A,B,C\""⟩] }

/-- Workbook around `wsInline`. -/
def wbInline : Workbook where
  sheets := [("Plan1", wsInline)]
  active := wsInline

/-- Same cells, with a one-sided-quote inline formula on B3: the input on
which Python's strip-all-quotes and the spec's strip-one-layer differ. -/
def wsLopsided : Worksheet :=
  { wsRange with data_validations := [⟨[⟨2, 3, 2, 3⟩], some "\"A,B"⟩] }

/-- Workbook around `wsLopsided`. -/
def wbLopsided : Workbook where
  sheets := [("Plan1", wsLopsided)]
  active := wsLopsided

/-- Same cells, with a cross-sheet rule `Lists!A1:A2` on B3 while no sheet
is named `Lists` (claim C3's fallback example). -/
def wsCross : Worksheet :=
  { wsRange with data_validations := [⟨[⟨2, 3, 2, 3⟩], some "Lists!A1:A2"⟩] }

/-- Workbook around `wsCross`. -/
def wbCross : Workbook where
  sheets := [("Plan1", wsCross)]
  active := wsCross

/-- Same cells, with a formula-less rule on B3 (claim C4's witness). -/
def wsNoFormula : Worksheet :=
  { wsRange with data_validations := [⟨[⟨2, 3, 2, 3⟩], none⟩] }

/-- Workbook around `wsNoFormula`. -/
def wbNoFormula : Workbook where
  sheets := [("Plan1", wsNoFormula)]
  active := wsNoFormula

/-- A file system with no files at all: the master template is missing. -/
def fsEmpty : FS where
  files _ := none

/-! ## Structure lemmas for the resolver -/

/-- The inner accumulator loop of `values_from_range` collects the string
forms of the row's non-empty cells, in order, after the accumulator. -/
theorem foldl_row_collect (row : List (Option PyVal)) (acc : List String) :
    row.foldl
      (fun acc2 c =>
        match c with
        | some v => acc2 ++ [pyStr v]
        | none => acc2)
      acc
      = acc ++ row.filterMap (fun c => c.map pyStr) := by
  induction row generalizing acc with
  | nil => simp
  | cons c rest ih =>
    cases c with
    | none => simpa [List.filterMap_cons] using ih acc
    | some v => simp [List.filterMap_cons, ih]

/-- The outer accumulator loop of `values_from_range` concatenates the
rows' collected values in row order. -/
theorem foldl_rows_collect (rows : List (List (Option PyVal)))
    (acc : List String) :
    rows.foldl
      (fun acc row =>
        row.foldl
          (fun acc2 c =>
            match c with
            | some v => acc2 ++ [pyStr v]
            | none => acc2)
          acc)
      acc
      = acc ++ rows.flatMap (fun row => row.filterMap (fun c => c.map pyStr)) := by
  induction rows generalizing acc with
  | nil => simp
  | cons row rest ih =>
    rw [List.foldl_cons, ih, foldl_row_collect, List.flatMap_cons,
      List.append_assoc]

/-- The rule-scanning loop of `get_dropdown_values` returns `applyRule` of
the first rule whose sqref contains the cell, and `[]` when none does. -/
theorem gdvScan_eq_find (wb : Workbook) (ws : Worksheet) (cell : String)
    (dvs : List DataValidation) :
    gdvScan wb ws cell dvs =
      match dvs.find? (fun dv => cell_in_sqref cell dv.sqref) with
      | none => []
      | some dv => applyRule wb ws dv := by
  induction dvs with
  | nil => rfl
  | cons dv rest ih =>
    cases h : cell_in_sqref cell dv.sqref with
    | true => simp [gdvScan, h, List.find?_cons, ih]
    | false => simp [gdvScan, h, List.find?_cons, ih]

/-- `get_dropdown_values` as a whole is the first-match characterization:
the empty-validations guard coincides with `find?` on `[]`. -/
theorem get_dropdown_values_eq_find (wb : Workbook) (ws : Worksheet)
    (cell : String) :
    get_dropdown_values wb ws cell =
      match ws.data_validations.find? (fun dv => cell_in_sqref cell dv.sqref) with
      | none => []
      | some dv => applyRule wb ws dv := by
  unfold get_dropdown_values
  cases h : ws.data_validations with
  | nil => simp
  | cons dv rest => simp [h, ← gdvScan_eq_find, List.isEmpty_cons]

/-! ## Claim theorems -/

/-- Claim C1 (confirmed).  Range resolution: whenever the range string
parses into bounds `(min_col, min_row, max_col, max_row)`,
`values_from_range` returns the string form of every non-empty cell of
that rectangle, visited in row-major order, preserving encounter order and
duplicates (`specRowMajorNonEmpty`); and on the concrete same-sheet range
rule `D1:D3` whose cells hold `"X"`, `"Y"` and an empty value, the
resolver returns `["X", "Y"]`, skipping the empty cell. -/
theorem c1_range_resolution :
    (∀ (ws : Worksheet) (rng : String) (mc mr xc xr : Nat),
      range_boundaries rng = some (mc, mr, xc, xr) →
      values_from_range ws rng = specRowMajorNonEmpty ws mc mr xc xr)
    ∧ get_dropdown_values wbRange wbRange.active "B3" = ["X", "Y"] := by
  constructor
  · intro ws rng mc mr xc xr h
    unfold values_from_range
    rw [h]
    dsimp only
    rw [foldl_rows_collect]
    unfold iter_rows specRowMajorNonEmpty
    rw [List.nil_append, List.flatMap_map]
    congr 1
    funext r
    rw [List.filterMap_map]
    rfl
  · decide

/-- Witness for C1's general part, at the concrete range `"D1:D3"`. -/
theorem c1_range_resolution_witness :
    values_from_range wsRange "D1:D3" = specRowMajorNonEmpty wsRange 4 1 4 3 :=
  c1_range_resolution.1 wsRange "D1:D3" 4 1 4 3 (by rfl)

/-- Claim C4 (confirmed).  Degrade-to-empty: the resolver is a total
function (it cannot raise), it returns `[]` when the worksheet has no
validation rules, when no rule's sqref contains the target cell, or when
the first matching rule's formula is absent or empty, and in general the
first rule whose range set contains the cell decides the result. -/
theorem c4_degrade_to_empty :
    (∀ (wb : Workbook) (ws : Worksheet) (cell : String),
      ws.data_validations = [] → get_dropdown_values wb ws cell = [])
    ∧ (∀ (wb : Workbook) (ws : Worksheet) (cell : String),
      (∀ dv ∈ ws.data_validations, cell_in_sqref cell dv.sqref = false) →
      get_dropdown_values wb ws cell = [])
    ∧ (∀ (wb : Workbook) (ws : Worksheet) (cell : String) (dv : DataValidation),
      ws.data_validations.find? (fun dv => cell_in_sqref cell dv.sqref) = some dv →
      dv.formula1 = none ∨ dv.formula1 = some "" →
      get_dropdown_values wb ws cell = [])
    ∧ (∀ (wb : Workbook) (ws : Worksheet) (cell : String),
      get_dropdown_values wb ws cell =
        match ws.data_validations.find? (fun dv => cell_in_sqref cell dv.sqref) with
        | none => []
        | some dv => applyRule wb ws dv) := by
  refine ⟨?_, ?_, ?_, ?_⟩
  · intro wb ws cell h
    simp [get_dropdown_values, h]
  · intro wb ws cell h
    rw [get_dropdown_values_eq_find]
    have : ws.data_validations.find? (fun dv => cell_in_sqref cell dv.sqref) = none := by
      rw [List.find?_eq_none]
      intro dv hdv
      simp [h dv hdv]
    rw [this]
  · intro wb ws cell dv hfind hform
    rw [get_dropdown_values_eq_find, hfind]
    rcases hform with h | h <;> simp [applyRule, h]
  · intro wb ws cell
    exact get_dropdown_values_eq_find wb ws cell

/-- Witness for C4: a rule matching B3 but carrying no formula resolves to
`[]`. -/
theorem c4_degrade_to_empty_witness :
    get_dropdown_values wbNoFormula wbNoFormula.active "B3" = [] :=
  c4_degrade_to_empty.2.2.1 wbNoFormula wbNoFormula.active "B3"
    ⟨[⟨2, 3, 2, 3⟩], none⟩ (by rfl) (Or.inl rfl)

/-- Claim C2, counterexample.  The claim says the inline-literal branch
strips ONE layer of surrounding double-quotes; the source's
`formula.strip().strip('"')` strips ALL leading and trailing quote
characters, each side independently.  On the lopsided formula `"A,B`
(a leading quote with no closing one) the code yields `["A", "B"]`
while the claim's one-layer pipeline yields `["\"A", "B"]`. -/
theorem c2_inline_literal_counterexample :
    get_dropdown_values wbLopsided wbLopsided.active "B3" = ["A", "B"]
    ∧ specInlineOneLayer "\"A,B" = ["\"A", "B"]
    ∧ get_dropdown_values wbLopsided wbLopsided.active "B3" ≠
        specInlineOneLayer "\"A,B" := by
  refine ⟨by decide, by decide, by decide⟩

/-- Claim C2 (corrected).  Amended inline-literal classification: for
every matched validation formula (after stripping a leading `=`), if it
contains a comma, contains neither `!` nor `:`, and does not start with
`$`, the resolver strips ALL leading and trailing double-quote characters
(not just one surrounding layer), splits on comma, trims each token, and
drops empty tokens; in particular an inline-list rule `"A,B,C"` attached
to cell B3 resolves to `["A", "B", "C"]`. -/
theorem c2_inline_literal_amended :
    (∀ (wb : Workbook) (ws : Worksheet) (cell : String) (dv : DataValidation)
      (f0 : String),
      ws.data_validations.find? (fun dv => cell_in_sqref cell dv.sqref) = some dv →
      dv.formula1 = some f0 → f0 ≠ "" →
      ∀ f : List Char,
        f = (if startsWithL ['='] (pyStrip f0.data) then (pyStrip f0.data).drop 1
             else pyStrip f0.data) →
        f.contains ',' = true → f.contains '!' = false →
        f.contains ':' = false → startsWithL ['$'] f = false →
        get_dropdown_values wb ws cell = inlineSplit (pyStripQuotes (pyStrip f)))
    ∧ get_dropdown_values wbInline wbInline.active "B3" = ["A", "B", "C"] := by
  constructor
  · intro wb ws cell dv f0 hfind hform hne f hf hcomma hbang hcolon hdollar
    rw [get_dropdown_values_eq_find, hfind]
    dsimp only
    unfold applyRule
    rw [hform]
    dsimp only
    rw [if_neg hne, ← hf]
    have hcond : (f.contains ',' && !f.contains '!' && !f.contains ':' &&
        !startsWithL ['$'] f) = true := by
      rw [hcomma, hbang, hcolon, hdollar]
      rfl
    rw [hcond]
    rfl
  · decide

/-- Witness for C2's amended general part, at the inline rule `"A,B,C"`. -/
theorem c2_inline_literal_witness :
    get_dropdown_values wbInline wbInline.active "B3" =
      inlineSplit (pyStripQuotes (pyStrip ("\"A,B,C\"").data)) :=
  c2_inline_literal_amended.1 wbInline wbInline.active "B3"
    ⟨[⟨2, 3, 2, 3⟩], some "\"A,B,C\""⟩ "\"A,B,C\"" (by rfl) rfl (by decide)
    ("\"A,B,C\"").data (by decide) (by decide) (by decide) (by decide) (by decide)

/-- Claim C3 (confirmed).  Cross-sheet classification: for every matched
validation formula containing `!`, the resolver splits on the first `!`
into sheet name and range, normalizes the sheet name (trimming, and
unquoting it when wrapped in single quotes), resolves the range with `$`
anchors stripped against that sheet when the workbook has it, and falls
back to the original worksheet otherwise; in particular the rule
`Lists!A1:A2` in a workbook with no sheet `Lists` resolves `A1:A2` on the
original sheet. -/
theorem c3_cross_sheet :
    (∀ (wb : Workbook) (ws : Worksheet) (cell : String) (dv : DataValidation)
      (f0 : String),
      ws.data_validations.find? (fun dv => cell_in_sqref cell dv.sqref) = some dv →
      dv.formula1 = some f0 → f0 ≠ "" →
      ∀ f : List Char,
        f = (if startsWithL ['='] (pyStrip f0.data) then (pyStrip f0.data).drop 1
             else pyStrip f0.data) →
        f.contains '!' = true →
        get_dropdown_values wb ws cell =
          values_from_range
            (lookupSheet wb (normalize_sheet_name (String.mk (splitFirst '!' f).1)) ws)
            (String.mk ((splitFirst '!' f).2.filter fun c => !(c == '$'))))
    ∧ (∀ (wb : Workbook) (name : String) (fallback : Worksheet),
      (wb.sheets.map Prod.fst).contains name = false →
      lookupSheet wb name fallback = fallback)
    ∧ get_dropdown_values wbCross wbCross.active "B3" =
        values_from_range wsCross "A1:A2"
    ∧ get_dropdown_values wbCross wbCross.active "B3" = ["P", "Q"] := by
  refine ⟨?_, ?_, by decide, by decide⟩
  · intro wb ws cell dv f0 hfind hform hne f hf hbang
    rw [get_dropdown_values_eq_find, hfind]
    dsimp only
    unfold applyRule
    rw [hform]
    dsimp only
    rw [if_neg hne, ← hf]
    have hcond1 : (f.contains ',' && !f.contains '!' && !f.contains ':' &&
        !startsWithL ['$'] f) = false := by
      rw [hbang]
      simp
    rw [hcond1, hbang]
    rfl
  · intro wb name fallback h
    unfold lookupSheet
    rw [h]
    rfl

/-- Witness for C3's general part, at the concrete rule `Lists!A1:A2`. -/
theorem c3_cross_sheet_witness :
    get_dropdown_values wbCross wbCross.active "B3" =
      values_from_range
        (lookupSheet wbCross
          (normalize_sheet_name (String.mk (splitFirst '!' ("Lists!A1:A2").data).1))
          wsCross)
        (String.mk ((splitFirst '!' ("Lists!A1:A2").data).2.filter fun c => !(c == '$'))) :=
  c3_cross_sheet.1 wbCross wbCross.active "B3"
    ⟨[⟨2, 3, 2, 3⟩], some "Lists!A1:A2"⟩ "Lists!A1:A2" (by rfl) rfl (by decide)
    ("Lists!A1:A2").data (by decide) (by decide)

/-- Claim C5 (confirmed).  With the master template missing, `calculate`
takes the `except FileNotFoundError` branch: the file system is returned
untouched (no scratch file is created or modified, since `copyfile` opens
the missing source before touching the destination) and all four result
variables are set to `format_brl(None) = "R$ 0,00"`; nothing else of the
app state changes. -/
theorem c5_missing_template :
    ∀ (fs : FS) (a : AppState), fs.files EXCEL_FILE = none →
      calculate fs a =
        (fs, { a with
          frete_var := "R$ 0,00"
          default_var := "R$ 0,00"
          total_var := "R$ 0,00"
          valor_unit_var := "R$ 0,00" }) := by
  intro fs a h
  have hbrl : format_brl none = "R$ 0,00" := by with_unfolding_all rfl
  unfold calculate
  rw [h]
  show (fs, set_results a none none none none) = _
  unfold set_results
  rw [hbrl]

/-- Witness for C5 at the concrete empty file system. -/
theorem c5_missing_template_witness :
    calculate fsEmpty (initApp fsEmpty) =
      (fsEmpty, { initApp fsEmpty with
        frete_var := "R$ 0,00"
        default_var := "R$ 0,00"
        total_var := "R$ 0,00"
        valor_unit_var := "R$ 0,00" }) :=
  c5_missing_template fsEmpty (initApp fsEmpty) rfl

/-- The observable effect of `_update_pagamento_state`: the two dependent
combobox states follow the `"vista"` test on the current payment-method
value, and no variable changes. -/
theorem update_pagamento_spec (a : AppState) :
    (update_pagamento_state a).bandeira_state =
      (if hasVista a.pagamento_var then .disabled else .readonly)
    ∧ (update_pagamento_state a).parcelas_state =
      (if hasVista a.pagamento_var then .disabled else .readonly)
    ∧ (update_pagamento_state a).bandeira_var = a.bandeira_var
    ∧ (update_pagamento_state a).parcelas_var = a.parcelas_var
    ∧ (update_pagamento_state a).pagamento_var = a.pagamento_var := by
  unfold update_pagamento_state
  cases h : hasVista a.pagamento_var <;> simp [h]

/-- Claim C9 (confirmed).  Payment-method dependent enabling: after any
change of the payment-method field to `v`, the card-brand and installment
comboboxes are `disabled` exactly when `v` contains `"vista"`
case-insensitively and are back in their enabled (`readonly`) state
otherwise — including for the empty string — while their underlying values
are untouched; and the same invariant already holds at startup, where the
check runs once at the end of `_build_ui`. -/
theorem c9_pagamento_enabling :
    (∀ (a : AppState) (v : String),
      (selectPagamento v a).bandeira_state =
        (if hasVista v then .disabled else .readonly)
      ∧ (selectPagamento v a).parcelas_state =
        (if hasVista v then .disabled else .readonly)
      ∧ (selectPagamento v a).bandeira_var = a.bandeira_var
      ∧ (selectPagamento v a).parcelas_var = a.parcelas_var
      ∧ (selectPagamento v a).pagamento_var = v)
    ∧ (∀ fs : FS,
      (initApp fs).bandeira_state =
        (if hasVista (initApp fs).pagamento_var then .disabled else .readonly)
      ∧ (initApp fs).parcelas_state =
        (if hasVista (initApp fs).pagamento_var then .disabled else .readonly)) := by
  constructor
  · intro a v
    unfold selectPagamento
    have h := update_pagamento_spec { a with pagamento_var := v }
    exact ⟨h.1, h.2.1, h.2.2.1, h.2.2.2.1, h.2.2.2.2⟩
  · intro fs
    unfold initApp
    have h := update_pagamento_spec
      { contribuinte_var := headOrEmpty (load_dropdowns fs).contribuinte
        preco_var := ""
        quantidade_var := ""
        pagamento_var := headOrEmpty (load_dropdowns fs).pagamento
        bandeira_var := headOrEmpty (load_dropdowns fs).bandeira
        parcelas_var := headOrEmpty (load_dropdowns fs).parcelas
        estado_var := headOrEmpty (load_dropdowns fs).estado
        bandeira_state := .readonly
        parcelas_state := .readonly
        frete_var := format_brl (some (.vint 0))
        default_var := format_brl (some (.vint 0))
        total_var := format_brl (some (.vint 0))
        valor_unit_var := format_brl (some (.vint 0)) }
    rw [h.1, h.2.1, h.2.2.2.2]
    exact ⟨rfl, rfl⟩

/-- One action leaves the master template file unchanged: startup only
reads it, and both file writes of `calculate` (the `copyfile` destination
and `wb.save`) target the scratch path, which differs from the template
path. -/
theorem stepAction_preserves_template (act : Action) (s : Sys) :
    (stepAction act s).fs.files EXCEL_FILE = s.fs.files EXCEL_FILE := by
  cases act with
  | startup => rfl
  | pressCalculate =>
    unfold stepAction
    dsimp only
    unfold calculate
    cases h : s.fs.files EXCEL_FILE with
    | none =>
      rw [h]
    | some t =>
      dsimp only
      rw [if_neg (by decide : ¬ (EXCEL_FILE = RUNTIME_EXCEL_FILE)),
        if_neg (by decide : ¬ (EXCEL_FILE = RUNTIME_EXCEL_FILE))]
      exact h

/-- Claim C10 (confirmed).  The master template is never written: under
every sequence of startup and Calculate actions, the workbook stored at
the template path is exactly the one there initially. -/
theorem c10_template_never_written :
    ∀ (acts : List Action) (s : Sys),
      (runActions acts s).fs.files EXCEL_FILE = s.fs.files EXCEL_FILE := by
  intro acts
  induction acts with
  | nil => intro s; rfl
  | cons act rest ih =>
    intro s
    rw [runActions, ih, stepAction_preserves_template]

/-! ## Digit-rendering lemmas -/

/-- `Nat.digitChar` of a value below ten is an ASCII digit. -/
theorem digitChar_isDigit {x : Nat} (h : x < 10) :
    (Nat.digitChar x).isDigit = true := by
  interval_cases x <;> decide

/-- `Nat.digitChar` inverts to its argument below ten. -/
theorem digitChar_toNat {x : Nat} (h : x < 10) :
    (Nat.digitChar x).toNat - 48 = x := by
  interval_cases x <;> decide

/-- All characters produced by `natDigitsAux` are digits. -/
theorem natDigitsAux_all_digit : ∀ fuel n, (natDigitsAux fuel n).all Char.isDigit = true
  | _, 0 => by rw [natDigitsAux]; rfl
  | 0, n + 1 => by rw [natDigitsAux]; rfl
  | fuel + 1, n + 1 => by
    rw [natDigitsAux, List.all_cons,
      digitChar_isDigit (Nat.mod_lt _ (by omega)), Bool.true_and]
    exact natDigitsAux_all_digit fuel ((n + 1) / 10)

/-- All characters of `digitsOf` are digits. -/
theorem digitsOf_all_digit (n : Nat) : (digitsOf n).all Char.isDigit = true := by
  unfold digitsOf
  split
  · rfl
  · rw [List.all_eq_true]
    intro x hx
    rw [List.mem_reverse] at hx
    exact (List.all_eq_true.mp (natDigitsAux_all_digit n n)) x hx

/-- `digitsOf` never returns the empty list. -/
theorem digitsOf_ne_nil (n : Nat) : digitsOf n ≠ [] := by
  unfold digitsOf
  split
  · simp
  · rename_i h
    match hm : n, h with
    | m + 1, _ =>
      rw [natDigitsAux]
      simp

/-- Folding the digit accumulator from an arbitrary start. -/
theorem natOfDigits_foldl_init (b : List Char) : ∀ init : Nat,
    b.foldl (fun a c => 10 * a + (c.toNat - 48)) init
      = init * 10 ^ b.length + natOfDigits b := by
  induction b with
  | nil => intro init; simp [natOfDigits]
  | cons c cs ih =>
    intro init
    rw [List.foldl_cons, ih]
    have h2 : natOfDigits (c :: cs) = (c.toNat - 48) * 10 ^ cs.length + natOfDigits cs := by
      show List.foldl _ (10 * 0 + (c.toNat - 48)) cs = _
      rw [ih]
      ring_nf
    rw [h2, List.length_cons]
    ring

/-- `natOfDigits` over an append. -/
theorem natOfDigits_append (a b : List Char) :
    natOfDigits (a ++ b) = natOfDigits a * 10 ^ b.length + natOfDigits b := by
  show List.foldl _ 0 (a ++ b) = _
  rw [List.foldl_append]
  exact natOfDigits_foldl_init b _

/-- Reading back the little-endian digits of `n` gives `n`, provided the
fuel covers `n`. -/
theorem natOfDigits_natDigitsAux :
    ∀ fuel n, n ≤ fuel → natOfDigits (natDigitsAux fuel n).reverse = n
  | _, 0, _ => by rw [natDigitsAux]; rfl
  | 0, n + 1, h => absurd h (by omega)
  | fuel + 1, n + 1, h => by
    rw [natDigitsAux, List.reverse_cons, natOfDigits_append,
      natOfDigits_natDigitsAux fuel ((n + 1) / 10) (by omega)]
    have hd : natOfDigits [Nat.digitChar ((n + 1) % 10)] = (n + 1) % 10 := by
      show 10 * 0 + ((Nat.digitChar ((n + 1) % 10)).toNat - 48) = _
      rw [digitChar_toNat (Nat.mod_lt _ (by omega))]
      omega
    rw [hd, List.length_singleton, pow_one]
    omega

/-- Reading back `digitsOf n` gives `n`. -/
theorem natOfDigits_digitsOf (n : Nat) : natOfDigits (digitsOf n) = n := by
  unfold digitsOf
  split
  · rename_i h; rw [h]; rfl
  · exact natOfDigits_natDigitsAux n n le_rfl

/-- `twoDig` reads back to its argument below 100. -/
theorem natOfDigits_twoDig {F : Nat} (h : F < 100) :
    natOfDigits (twoDig F) = F := by
  show 10 * (10 * 0 + ((Nat.digitChar (F / 10 % 10)).toNat - 48))
      + ((Nat.digitChar (F % 10)).toNat - 48) = F
  rw [digitChar_toNat (Nat.mod_lt _ (by omega)),
    digitChar_toNat (Nat.mod_lt _ (by omega))]
  omega

/-- Both characters of `twoDig` are digits. -/
theorem twoDig_digits (F : Nat) :
    (Nat.digitChar (F / 10 % 10)).isDigit = true
    ∧ (Nat.digitChar (F % 10)).isDigit = true :=
  ⟨digitChar_isDigit (Nat.mod_lt _ (by omega)),
   digitChar_isDigit (Nat.mod_lt _ (by omega))⟩

/-! ## Grouping lemmas -/

/-- `go3` keeps nonemptiness. -/
theorem go3_ne_nil : ∀ l : List Char, l ≠ [] → go3 l ≠ []
  | [], h => absurd rfl h
  | [a], _ => by simp [go3]
  | [a, b], _ => by simp [go3]
  | [a, b, c], _ => by simp [go3]
  | a :: b :: c :: d :: rest, _ => by rw [go3]; simp

/-- Every character of `go3 l` comes from `l` or is the separator. -/
theorem mem_go3 : ∀ (l : List Char) (x : Char), x ∈ go3 l → x ∈ l ∨ x = '.'
  | [], x, h => Or.inl h
  | [a], x, h => Or.inl h
  | [a, b], x, h => Or.inl h
  | [a, b, c], x, h => Or.inl h
  | a :: b :: c :: d :: rest, x, h => by
    rw [go3] at h
    rcases List.mem_cons.mp h with h1 | h
    · exact Or.inl (by simp [h1])
    rcases List.mem_cons.mp h with h1 | h
    · exact Or.inl (by simp [h1])
    rcases List.mem_cons.mp h with h1 | h
    · exact Or.inl (by simp [h1])
    rcases List.mem_cons.mp h with h1 | h
    · exact Or.inr h1
    · rcases mem_go3 (d :: rest) x h with h2 | h2
      · rcases List.mem_cons.mp h2 with h3 | h3
        · exact Or.inl (by simp [h3])
        · exact Or.inl (by simp [List.mem_cons]; tauto)
      · exact Or.inr h2

/-- Removing the separators from `go3 l` restores `l`, provided `l` itself
holds no separator. -/
theorem filter_go3_dots : ∀ l : List Char, (∀ c ∈ l, (c == '.') = false) →
    (go3 l).filter (fun c => !(c == '.')) = l
  | [], _ => rfl
  | [a], h => by
    show List.filter _ [a] = [a]
    simp [List.filter_cons, h a (by simp)]
  | [a, b], h => by
    show List.filter _ [a, b] = [a, b]
    simp [List.filter_cons, h a (by simp), h b (by simp)]
  | [a, b, c], h => by
    show List.filter _ [a, b, c] = [a, b, c]
    simp [List.filter_cons, h a (by simp), h b (by simp), h c (by simp)]
  | a :: b :: c :: d :: rest, h => by
    rw [go3]
    have ih := filter_go3_dots (d :: rest) fun x hx => h x (by
      rcases List.mem_cons.mp hx with h1 | h1
      · simp [h1]
      · simp [List.mem_cons]; tauto)
    simp only [List.filter_cons, h a (by simp), h b (by simp), h c (by simp)]
    simp only [Bool.not_false, if_true, ih]
    simp

/-- The grouped form of a nonempty all-digits list passes the reversed
shape check. -/
theorem revIntOK_go3 : ∀ l : List Char, l ≠ [] → l.all Char.isDigit = true →
    revIntOK (go3 l) = true
  | [], h, _ => absurd rfl h
  | [a], _, hd => by
    show revIntOK [a] = true
    rw [revIntOK]
    simpa using hd
  | [a, b], _, hd => by
    show revIntOK [a, b] = true
    rw [revIntOK]
    simpa using hd
  | [a, b, c], _, hd => by
    show revIntOK [a, b, c] = true
    rw [revIntOK]
    simpa [Bool.and_assoc] using hd
  | a :: b :: c :: d :: rest, _, hd => by
    rw [go3, revIntOK]
    simp only [List.all_cons, Bool.and_eq_true] at hd
    have ih := revIntOK_go3 (d :: rest) (by simp) (by
      simp only [List.all_cons, Bool.and_eq_true]
      exact ⟨hd.2.2.2.1, hd.2.2.2.2⟩)
    rw [hd.1, hd.2.1, hd.2.2.1, ih]
    rfl

/-! ## Character-class helpers -/

/-- A digit differs from every non-digit character. -/
theorem isDigit_ne {c x : Char} (h : c.isDigit = true) (hx : x.isDigit = false) :
    c ≠ x := by
  intro e
  rw [e, hx] at h
  exact Bool.false_ne_true h

/-- Digits are not whitespace. -/
theorem isDigit_not_ws {c : Char} (h : c.isDigit = true) :
    c.isWhitespace = false := by
  have h1 : c ≠ ' ' := isDigit_ne h (by decide)
  have h2 : c ≠ '\t' := isDigit_ne h (by decide)
  have h3 : c ≠ '\r' := isDigit_ne h (by decide)
  have h4 : c ≠ '\n' := isDigit_ne h (by decide)
  simp [Char.isWhitespace, h1, h2, h3, h4]

/-- `dropWhile` is the identity when the predicate fails everywhere. -/
theorem dropWhile_all_false {p : Char → Bool} :
    ∀ l : List Char, (∀ c ∈ l, p c = false) → l.dropWhile p = l
  | [], _ => rfl
  | a :: as, h => by
    rw [List.dropWhile_cons, h a (by simp)]
    simp

/-- `pyStrip` is the identity on whitespace-free text. -/
theorem pyStrip_id {l : List Char} (h : ∀ c ∈ l, c.isWhitespace = false) :
    pyStrip l = l := by
  unfold pyStrip
  rw [dropWhile_all_false l h,
    dropWhile_all_false l.reverse (fun c hc => h c (List.mem_reverse.mp hc)),
    List.reverse_reverse]

/-- An all-digits list stays all-digits under reversal. -/
theorem all_digit_reverse {l : List Char} (h : l.all Char.isDigit = true) :
    l.reverse.all Char.isDigit = true := by
  rw [List.all_eq_true] at *
  intro x hx
  exact h x (List.mem_reverse.mp hx)

/-- `groupDigits` keeps nonemptiness. -/
theorem groupDigits_ne_nil {ds : List Char} (h : ds ≠ []) :
    groupDigits ds ≠ [] := by
  unfold groupDigits
  intro hc
  rw [List.reverse_eq_nil_iff] at hc
  exact go3_ne_nil ds.reverse (by simpa [List.reverse_eq_nil_iff] using h) hc

/-- Characters of `groupDigits ds` come from `ds` or are the separator. -/
theorem mem_groupDigits {ds : List Char} {x : Char} (hx : x ∈ groupDigits ds) :
    x ∈ ds ∨ x = '.' := by
  unfold groupDigits at hx
  rw [List.mem_reverse] at hx
  rcases mem_go3 _ x hx with h | h
  · exact Or.inl (List.mem_reverse.mp h)
  · exact Or.inr h

/-- Ungrouping: the reversal of `groupDigits`. -/
theorem reverse_groupDigits (ds : List Char) :
    (groupDigits ds).reverse = go3 ds.reverse := by
  unfold groupDigits
  exact List.reverse_reverse _

/-- Unfolding `isBRLFormat` past its literal prefix. -/
theorem isBRLFormat_cons (rest : List Char) :
    isBRLFormat (String.mk ('R' :: '$' :: ' ' :: rest)) =
      (match (if startsWithL ['-'] rest then rest.drop 1 else rest).reverse with
       | d1 :: d2 :: ',' :: ri => d1.isDigit && d2.isDigit && revIntOK ri
       | _ => false) := rfl

/-- Reversing a grouped-digits body around its decimal comma. -/
theorem rev_comma_twoDig (F : Nat) (A : List Char) :
    (A ++ ',' :: twoDig F).reverse =
      Nat.digitChar (F % 10) :: Nat.digitChar (F / 10 % 10) :: ',' :: A.reverse := by
  unfold twoDig
  simp [List.reverse_append]

/-- Core shape fact behind claim C6: with an optional minus sign, grouped
integer digits, a comma and the two fraction digits, the output passes the
format check. -/
theorem isBRL_core (sign : List Char) (I F : Nat)
    (hs : sign = [] ∨ sign = ['-']) :
    isBRLFormat (String.mk ('R' :: '$' :: ' ' ::
      (sign ++ groupDigits (digitsOf I) ++ ',' :: twoDig F))) = true := by
  have hds_ne : digitsOf I ≠ [] := digitsOf_ne_nil I
  have hgrp_ne : groupDigits (digitsOf I) ≠ [] := groupDigits_ne_nil hds_ne
  have hrev : revIntOK ((groupDigits (digitsOf I)).reverse) = true := by
    rw [reverse_groupDigits]
    exact revIntOK_go3 _ (by simpa [List.reverse_eq_nil_iff] using hds_ne)
      (all_digit_reverse (digitsOf_all_digit I))
  have hdig := twoDig_digits F
  rcases hs with hsign | hsign
  · subst hsign
    rw [List.nil_append]
    rcases List.exists_cons_of_ne_nil hgrp_ne with ⟨g0, gt, hg⟩
    have hg0 : ('-' == g0) = false := by
      rw [beq_eq_false_iff_ne]
      have hmem : g0 ∈ groupDigits (digitsOf I) := by rw [hg]; simp
      rcases mem_groupDigits hmem with hd | hd
      · exact (isDigit_ne ((List.all_eq_true.mp (digitsOf_all_digit I)) g0 hd)
          (by decide)).symm
      · rw [hd]; decide
    have hcond : startsWithL ['-'] (groupDigits (digitsOf I) ++ ',' :: twoDig F)
        = false := by
      rw [hg, List.cons_append]
      simp [startsWithL, hg0]
    rw [isBRLFormat_cons, hcond, if_neg (by simp), rev_comma_twoDig]
    show ((Nat.digitChar (F % 10)).isDigit && (Nat.digitChar (F / 10 % 10)).isDigit
      && revIntOK ((groupDigits (digitsOf I)).reverse)) = true
    rw [hdig.2, hdig.1, hrev]
    rfl
  · subst hsign
    have hcond : startsWithL ['-']
        (['-'] ++ groupDigits (digitsOf I) ++ ',' :: twoDig F) = true := by
      simp [startsWithL]
    rw [isBRLFormat_cons, hcond, if_pos rfl]
    show (match ((groupDigits (digitsOf I) ++ ',' :: twoDig F)).reverse with
       | d1 :: d2 :: ',' :: ri => d1.isDigit && d2.isDigit && revIntOK ri
       | _ => false) = true
    rw [rev_comma_twoDig]
    show ((Nat.digitChar (F % 10)).isDigit && (Nat.digitChar (F / 10 % 10)).isDigit
      && revIntOK ((groupDigits (digitsOf I)).reverse)) = true
    rw [hdig.2, hdig.1, hrev]
    rfl

/-- Every rendered currency value has the claimed shape. -/
theorem isBRLFormat_brl_any (N : ℚ) :
    isBRLFormat (String.mk ('R' :: '$' :: ' ' :: brlChars N)) = true := by
  unfold brlChars
  dsimp only
  split
  · exact isBRL_core ['-'] _ _ (Or.inr rfl)
  · exact isBRL_core [] _ _ (Or.inl rfl)

/-- Claim C6 (confirmed).  `format_brl` postconditions: every output is
`"R$ "` followed by an optional sign, digits grouped in threes by `.`, a
`,` and exactly two decimal digits; absent (`None`) and non-numeric inputs
are treated as zero; and the four example values format as claimed. -/
theorem c6_format_currency :
    (∀ v : Option PyVal, isBRLFormat (format_brl v) = true)
    ∧ format_brl none = "R$ 0,00"
    ∧ (∀ s : String, pyFloat? s = none →
        format_brl (some (.vstr s)) = "R$ 0,00")
    ∧ format_brl (some (.vint 0)) = "R$ 0,00"
    ∧ format_brl (some (.vfloat (1234.5 : ℚ))) = "R$ 1.234,50"
    ∧ format_brl (some (.vstr "abc")) = "R$ 0,00" := by
  refine ⟨?_, by with_unfolding_all rfl, ?_, by with_unfolding_all rfl,
    by with_unfolding_all rfl, by with_unfolding_all rfl⟩
  · intro v
    unfold format_brl
    exact isBRLFormat_brl_any _
  · intro s h
    unfold format_brl
    dsimp only
    rw [h]
    with_unfolding_all rfl

/-- Witness for C6's non-numeric clause at the string `"abc"`. -/
theorem c6_format_currency_witness :
    format_brl (some (.vstr "abc")) = "R$ 0,00" :=
  c6_format_currency.2.2.1 "abc" (by with_unfolding_all rfl)

/-- Claim C7 (confirmed).  Locale parsers are total and degrade to zero:
`parse_float` yields 0 on absent input, returns the `float()` value of the
cleaned text (stripped, `.` removed, `,` turned into `.`) when it parses
and 0 when it does not; `parse_int` yields 0 on absent input, the `int()`
value of the trimmed text when it parses and 0 when it does not; and the
example values behave as claimed.  Totality in Lean embodies "never
raises". -/
theorem c7_locale_parsers :
    parse_float none = 0
    ∧ (∀ (s : String) (q : ℚ), floatChars? (cleanedOf s) = some q →
        parse_float (some s) = q)
    ∧ (∀ s : String, floatChars? (cleanedOf s) = none → parse_float (some s) = 0)
    ∧ parse_float (some "1.234,56") = (1234.56 : ℚ)
    ∧ parse_float (some "") = 0
    ∧ parse_int none = 0
    ∧ (∀ (s : String) (z : ℤ), intChars? (pyStrip s.data) = some z →
        parse_int (some s) = z)
    ∧ (∀ s : String, intChars? (pyStrip s.data) = none → parse_int (some s) = 0)
    ∧ parse_int (some "12") = 12
    ∧ parse_int (some "x") = 0 := by
  refine ⟨rfl, ?_, ?_, by with_unfolding_all rfl, by with_unfolding_all rfl,
    rfl, ?_, ?_, by with_unfolding_all rfl, by with_unfolding_all rfl⟩
  · intro s q h
    unfold parse_float
    dsimp only
    rw [h]
  · intro s h
    unfold parse_float
    dsimp only
    rw [h]
  · intro s z h
    unfold parse_int
    dsimp only
    rw [h]
  · intro s h
    unfold parse_int
    dsimp only
    rw [h]

/-- Witness for C7's conditional clauses, at `"1.234,56"` (parsable) and
`"x"` (unparsable). -/
theorem c7_locale_parsers_witness :
    parse_float (some "1.234,56") = (1234.56 : ℚ) ∧ parse_int (some "x") = 0 :=
  ⟨c7_locale_parsers.2.1 "1.234,56" (1234.56 : ℚ) (by with_unfolding_all rfl),
   c7_locale_parsers.2.2.2.2.2.2.2.1 "x" (by with_unfolding_all rfl)⟩

/-! ## Round-trip lemmas (claim C8) -/

/-- `roundHalfEven` is the identity on integers. -/
theorem roundHalfEven_intCast (z : ℤ) : roundHalfEven ((z : ℚ)) = z := by
  unfold roundHalfEven
  rw [Int.floor_intCast]
  norm_num

/-- Dividing an integer cast by 100 is negative exactly when the integer
is. -/
theorem cast_div100_neg_iff (z : ℤ) : ((z : ℚ) / 100 < 0) ↔ z < 0 := by
  rw [div_neg_iff]
  constructor
  · rintro (⟨h1, h2⟩ | ⟨h1, h2⟩)
    · norm_num at h2
    · exact_mod_cast h1
  · intro h
    right
    exact ⟨by exact_mod_cast h, by norm_num⟩

/-- A digit and a non-digit compare unequal under `==`. -/
theorem digit_beq_false {c x : Char} (h : c.isDigit = true)
    (hx : x.isDigit = false) : (c == x) = false :=
  beq_eq_false_iff_ne.mpr (isDigit_ne h hx)

/-- Both entries of `twoDig` are digits (as an `all` fact). -/
theorem twoDig_all_digit (F : Nat) : (twoDig F).all Char.isDigit = true := by
  unfold twoDig
  simp [digitChar_isDigit (Nat.mod_lt _ (by omega) : F / 10 % 10 < 10),
    digitChar_isDigit (Nat.mod_lt _ (by omega) : F % 10 < 10)]

/-- `takeWhile`/`dropWhile` on an all-true list. -/
theorem takeWhile_all {p : Char → Bool} :
    ∀ l : List Char, (∀ c ∈ l, p c = true) →
      l.takeWhile p = l ∧ l.dropWhile p = []
  | [], _ => ⟨rfl, rfl⟩
  | a :: as, h => by
    have ih := takeWhile_all as fun c hc => h c (by simp [hc])
    rw [List.takeWhile_cons, List.dropWhile_cons, h a (by simp)]
    simp [ih.1, ih.2]

/-- `takeWhile`/`dropWhile` across an all-true prefix followed by a
failing head. -/
theorem takeWhile_append_all {p : Char → Bool} :
    ∀ l : List Char, (∀ c ∈ l, p c = true) →
      ∀ (a : Char), p a = false → ∀ r : List Char,
        (l ++ a :: r).takeWhile p = l ∧ (l ++ a :: r).dropWhile p = a :: r
  | [], _, a, ha, r => by
    rw [List.nil_append, List.takeWhile_cons, List.dropWhile_cons, ha]
    simp
  | x :: xs, h, a, ha, r => by
    have ih := takeWhile_append_all xs (fun c hc => h c (by simp [hc])) a ha r
    rw [List.cons_append, List.takeWhile_cons, List.dropWhile_cons, h x (by simp)]
    simp [ih.1, ih.2]

/-- `underscoresOKAux` holds on underscore-free text. -/
theorem underscoresOKAux_no_underscore :
    ∀ (p : Char) (l : List Char), (∀ c ∈ l, c ≠ '_') →
      underscoresOKAux p l = true
  | _, [], _ => rfl
  | p, a :: rest, h => by
    rw [underscoresOKAux.eq_def]
    dsimp only
    rw [if_neg (h a (by simp))]
    exact underscoresOKAux_no_underscore a rest fun c hc => h c (by simp [hc])

/-- `underscoresOK` holds on underscore-free text. -/
theorem underscoresOK_no_underscore {l : List Char}
    (h : ∀ c ∈ l, c ≠ '_') : underscoresOK l = true := by
  unfold underscoresOK
  cases l with
  | nil => rfl
  | cons a rest =>
    dsimp only
    rw [if_neg (h a (by simp))]
    exact underscoresOKAux_no_underscore a rest fun c hc => h c (by simp [hc])

/-- `signSplit` passes a leading digit through untouched. -/
theorem signSplit_of_digit {a : Char} (h : a.isDigit = true) (r : List Char) :
    signSplit (a :: r) = (false, a :: r) := by
  rw [signSplit, if_neg (isDigit_ne h (by decide)),
    if_neg (isDigit_ne h (by decide))]

/-- The comma-to-dot swap is the identity on comma-free text. -/
theorem map_swapComma_id :
    ∀ l : List Char, (∀ c ∈ l, (c == ',') = false) →
      l.map (fun c => if c == ',' then '.' else c) = l
  | [], _ => rfl
  | a :: as, h => by
    rw [List.map_cons, h a (by simp),
      map_swapComma_id as fun c hc => h c (by simp [hc])]
    simp

/-- Dropping the separators of a grouped digit list recovers the digits. -/
theorem filter_groupDigits_dots {ds : List Char}
    (h : ds.all Char.isDigit = true) :
    (groupDigits ds).filter (fun c => !(c == '.')) = ds := by
  unfold groupDigits
  rw [List.filter_reverse, filter_go3_dots, List.reverse_reverse]
  intro c hc
  exact digit_beq_false
    ((List.all_eq_true.mp (all_digit_reverse h)) c hc) (by decide)

/-- `floatCore` on grouped-free digits with a two-digit fraction. -/
theorem floatCore_frac (I F : Nat) (hF : F < 100) :
    floatCore (digitsOf I ++ '.' :: twoDig F) =
      some (((I * 100 + F : Nat) : ℚ) / 100) := by
  have hsp := takeWhile_append_all (digitsOf I)
    (List.all_eq_true.mp (digitsOf_all_digit I)) '.' (by decide) (twoDig F)
  have hsp2 := takeWhile_all (twoDig F) (List.all_eq_true.mp (twoDig_all_digit F))
  rcases List.exists_cons_of_ne_nil (digitsOf_ne_nil I) with ⟨d0, dt, hds⟩
  unfold floatCore
  rw [List.span_eq_take_drop, hsp.1, hsp.2]
  dsimp only
  rw [if_pos (show (('.' :: twoDig F) : List Char).head? = some '.' from rfl)]
  rw [show (('.' :: twoDig F) : List Char).tail = twoDig F from rfl,
    List.span_eq_take_drop, hsp2.1, hsp2.2]
  rw [show (digitsOf I).isEmpty = false from by rw [hds]; rfl, Bool.false_and,
    if_neg Bool.false_ne_true]
  dsimp only
  rw [natOfDigits_append, natOfDigits_digitsOf, natOfDigits_twoDig hF,
    show (twoDig F).length = 2 from rfl]
  push_cast
  norm_num

/-- `floatChars?` on an unsigned digits-dot-digits literal. -/
theorem floatChars_pos (I F : Nat) (hF : F < 100) :
    floatChars? (digitsOf I ++ '.' :: twoDig F) =
      some (((I * 100 + F : Nat) : ℚ) / 100) := by
  have hchars : ∀ c ∈ digitsOf I ++ '.' :: twoDig F,
      c = '.' ∨ c.isDigit = true := by
    intro c hc
    rcases List.mem_append.mp hc with h | h
    · exact Or.inr ((List.all_eq_true.mp (digitsOf_all_digit I)) c h)
    · rcases List.mem_cons.mp h with h | h
      · exact Or.inl h
      · exact Or.inr ((List.all_eq_true.mp (twoDig_all_digit F)) c h)
  have hnws : ∀ c ∈ digitsOf I ++ '.' :: twoDig F, c.isWhitespace = false := by
    intro c hc
    rcases hchars c hc with h | h
    · rw [h]; decide
    · exact isDigit_not_ws h
  have hnus : ∀ c ∈ digitsOf I ++ '.' :: twoDig F, c ≠ '_' := by
    intro c hc
    rcases hchars c hc with h | h
    · rw [h]; decide
    · exact isDigit_ne h (by decide)
  rcases List.exists_cons_of_ne_nil (digitsOf_ne_nil I) with ⟨d0, dt, hds⟩
  have hd0 : d0.isDigit = true :=
    (List.all_eq_true.mp (digitsOf_all_digit I)) d0 (by rw [hds]; simp)
  unfold floatChars?
  dsimp only
  rw [pyStrip_id hnws, underscoresOK_no_underscore hnus,
    if_neg (by decide : ¬ (true = false)),
    List.filter_eq_self.mpr (fun c hc => by
      rw [beq_eq_false_iff_ne.mpr (hnus c hc)]; rfl)]
  rw [hds, List.cons_append, signSplit_of_digit hd0]
  dsimp only
  rw [← List.cons_append, ← hds, floatCore_frac I F hF]
  dsimp only
  rfl

/-- `floatChars?` on the same literal with a leading minus sign. -/
theorem floatChars_neg (I F : Nat) (hF : F < 100) :
    floatChars? ('-' :: (digitsOf I ++ '.' :: twoDig F)) =
      some (-(((I * 100 + F : Nat) : ℚ) / 100)) := by
  have hchars : ∀ c ∈ '-' :: (digitsOf I ++ '.' :: twoDig F),
      c = '-' ∨ c = '.' ∨ c.isDigit = true := by
    intro c hc
    rcases List.mem_cons.mp hc with h | h
    · exact Or.inl h
    rcases List.mem_append.mp h with h | h
    · exact Or.inr (Or.inr ((List.all_eq_true.mp (digitsOf_all_digit I)) c h))
    · rcases List.mem_cons.mp h with h | h
      · exact Or.inr (Or.inl h)
      · exact Or.inr (Or.inr ((List.all_eq_true.mp (twoDig_all_digit F)) c h))
  have hnws : ∀ c ∈ '-' :: (digitsOf I ++ '.' :: twoDig F),
      c.isWhitespace = false := by
    intro c hc
    rcases hchars c hc with h | h | h
    · rw [h]; decide
    · rw [h]; decide
    · exact isDigit_not_ws h
  have hnus : ∀ c ∈ '-' :: (digitsOf I ++ '.' :: twoDig F), c ≠ '_' := by
    intro c hc
    rcases hchars c hc with h | h | h
    · rw [h]; decide
    · rw [h]; decide
    · exact isDigit_ne h (by decide)
  unfold floatChars?
  dsimp only
  rw [pyStrip_id hnws, underscoresOK_no_underscore hnus,
    if_neg (by decide : ¬ (true = false)),
    List.filter_eq_self.mpr (fun c hc => by
      rw [beq_eq_false_iff_ne.mpr (hnus c hc)]; rfl)]
  rw [signSplit, if_neg (by decide), if_pos rfl]
  dsimp only
  rw [floatCore_frac I F hF]
  dsimp only
  rfl

/-- Exactness behind claim C8: formatting `z/100`, stripping the tag and
re-parsing reproduces `z/100` with no error at all. -/
theorem parse_format_exact (z : ℤ) :
    parse_float (some (dropBRLTag (format_brl (some (.vfloat ((z : ℚ) / 100)))))) =
      (z : ℚ) / 100 := by
  have h100 : ((z : ℚ) / 100) * 100 = (z : ℚ) := div_mul_cancel₀ _ (by norm_num)
  have hbody : brlChars ((z : ℚ) / 100) =
      (if (z : ℚ) / 100 < 0 then ['-'] else []) ++
        groupDigits (digitsOf (z.natAbs / 100)) ++
          ',' :: twoDig (z.natAbs % 100) := by
    unfold brlChars
    dsimp only
    rw [h100, roundHalfEven_intCast]
  have hdrop : dropBRLTag (format_brl (some (.vfloat ((z : ℚ) / 100)))) =
      String.mk (brlChars ((z : ℚ) / 100)) := rfl
  have hgchars : ∀ c ∈ groupDigits (digitsOf (z.natAbs / 100)) ++
      ',' :: twoDig (z.natAbs % 100), c = '.' ∨ c = ',' ∨ c.isDigit = true := by
    intro c hc
    rcases List.mem_append.mp hc with h | h
    · rcases mem_groupDigits h with h2 | h2
      · exact Or.inr (Or.inr
          ((List.all_eq_true.mp (digitsOf_all_digit _)) c h2))
      · exact Or.inl h2
    · rcases List.mem_cons.mp h with h2 | h2
      · exact Or.inr (Or.inl h2)
      · exact Or.inr (Or.inr
          ((List.all_eq_true.mp (twoDig_all_digit _)) c h2))
  have hfilter : (groupDigits (digitsOf (z.natAbs / 100)) ++
      ',' :: twoDig (z.natAbs % 100)).filter (fun c => !(c == '.')) =
        digitsOf (z.natAbs / 100) ++ ',' :: twoDig (z.natAbs % 100) := by
    rw [List.filter_append, filter_groupDigits_dots (digitsOf_all_digit _),
      List.filter_cons]
    rw [show ((',' == '.') : Bool) = false from rfl]
    simp only [Bool.not_false, if_true]
    rw [List.filter_eq_self.mpr fun c hc => by
      rw [digit_beq_false ((List.all_eq_true.mp (twoDig_all_digit _)) c hc)
        (by decide)]
      rfl]
  have hmap : (digitsOf (z.natAbs / 100) ++
      ',' :: twoDig (z.natAbs % 100)).map (fun c => if c == ',' then '.' else c) =
        digitsOf (z.natAbs / 100) ++ '.' :: twoDig (z.natAbs % 100) := by
    rw [List.map_append,
      map_swapComma_id (digitsOf (z.natAbs / 100)) (fun c hc =>
        digit_beq_false ((List.all_eq_true.mp (digitsOf_all_digit _)) c hc)
          (by decide)),
      List.map_cons,
      show ((',' == ',') : Bool) = true from rfl]
    rw [map_swapComma_id (twoDig (z.natAbs % 100)) fun c hc =>
      digit_beq_false ((List.all_eq_true.mp (twoDig_all_digit _)) c hc)
        (by decide)]
    rfl
  have hF : z.natAbs % 100 < 100 := Nat.mod_lt _ (by omega)
  have hdm : z.natAbs / 100 * 100 + z.natAbs % 100 = z.natAbs := by omega
  rw [hdrop]
  unfold parse_float
  dsimp only
  unfold cleanedOf
  by_cases hneg : (z : ℚ) / 100 < 0
  · rw [if_pos hneg] at hbody
    have hz0 : z < 0 := (cast_div100_neg_iff z).mp hneg
    have hnws : ∀ c ∈ ('-' :: (groupDigits (digitsOf (z.natAbs / 100)) ++
        ',' :: twoDig (z.natAbs % 100))), c.isWhitespace = false := by
      intro c hc
      rcases List.mem_cons.mp hc with h | h
      · rw [h]; decide
      · rcases hgchars c h with h2 | h2 | h2
        · rw [h2]; decide
        · rw [h2]; decide
        · exact isDigit_not_ws h2
    rw [show (String.mk (brlChars ((z : ℚ) / 100))).data =
        brlChars ((z : ℚ) / 100) from rfl]
    rw [hbody]
    simp only [List.cons_append, List.nil_append]
    rw [pyStrip_id hnws, List.filter_cons,
      if_pos (by decide : (!(('-' == '.') : Bool)) = true), hfilter,
      List.map_cons, if_neg (by decide : ¬ ((('-' == ',') : Bool) = true)),
      hmap, floatChars_neg _ _ hF]
    dsimp only
    rw [hdm]
    rw [Int.cast_natAbs, abs_of_neg hz0]
    push_cast
    ring
  · rw [if_neg hneg, List.nil_append] at hbody
    have hz0 : 0 ≤ z := by
      by_contra hlt
      exact hneg ((cast_div100_neg_iff z).mpr (by omega))
    have hnws : ∀ c ∈ groupDigits (digitsOf (z.natAbs / 100)) ++
        ',' :: twoDig (z.natAbs % 100), c.isWhitespace = false := by
      intro c hc
      rcases hgchars c hc with h2 | h2 | h2
      · rw [h2]; decide
      · rw [h2]; decide
      · exact isDigit_not_ws h2
    rw [show (String.mk (brlChars ((z : ℚ) / 100))).data =
        brlChars ((z : ℚ) / 100) from rfl]
    rw [hbody, pyStrip_id hnws, hfilter, hmap, floatChars_pos _ _ hF]
    dsimp only
    rw [hdm]
    rw [Int.cast_natAbs, abs_of_nonneg hz0]

/-- Claim C8 (confirmed).  Round trip: for every number with two decimal
places (every `z / 100` with `z` an integer), formatting it with
`format_brl`, stripping the `"R$ "` prefix and re-parsing with
`parse_float` reproduces the number within 0.01 — indeed exactly. -/
theorem c8_round_trip (z : ℤ) :
    |parse_float (some (dropBRLTag (format_brl (some (.vfloat ((z : ℚ) / 100)))))) -
      (z : ℚ) / 100| ≤ 1 / 100 := by
  rw [parse_format_exact, sub_self, abs_zero]
  norm_num

end SystemSAT
